import Mathlib

/-!
Shallow embedding of `src/generate.ts` of the `openapi-trpc` package: the
schema-normalization and document-synthesis pipeline that converts a tRPC
router description into an OpenAPI v3 document.  Zod type descriptors are
modelled structurally (the two tagging dialects live in the `_def` /
outer-`def` records), JavaScript truthiness of optional strings is made
explicit, exceptions are modelled with `Except`, and the runtime presence
of Zod 4's native JSON-Schema conversion is an explicit environment.
-/

set_option maxRecDepth 4096

namespace OpenapiTrpc

/-- The `_def` record of a Zod descriptor: Zod 3 stores the kind tag in
`typeName` (e.g. "ZodObject"), Zod 4 stores it in `type` (e.g. "object"). -/
structure ZDef where
  typeName : Option String
  type : Option String
  deriving Repr, DecidableEq

/-- The outer `def` record used by Zod 4 descriptors (`def.type`). -/
structure DDef where
  type : Option String
  deriving Repr, DecidableEq

/-- A Zod type descriptor as inspected by `generate.ts`: the two dialects'
tag locations, the optional `description` field, and the object shape
(used by `ZodObject.merge`).  Shape payloads are descriptors themselves. -/
inductive TypeDesc : Type where
  | mk (zdef : Option ZDef) (ddef : Option DDef) (description : Option String)
       (shape : List (String × TypeDesc)) : TypeDesc

/-- Projection: the `_def` record. -/
def TypeDesc.zdef : TypeDesc → Option ZDef
  | .mk z _ _ _ => z

/-- Projection: the outer `def` record. -/
def TypeDesc.ddef : TypeDesc → Option DDef
  | .mk _ d _ _ => d

/-- Projection: the `description` field. -/
def TypeDesc.description : TypeDesc → Option String
  | .mk _ _ s _ => s

/-- Projection: the object shape. -/
def TypeDesc.shape : TypeDesc → List (String × TypeDesc)
  | .mk _ _ _ sh => sh

/-- JavaScript truthiness of an optional string: `undefined` and `""` are
falsy, every other string is truthy. -/
def strTruthy : Option String → Bool
  | none => false
  | some s => s ≠ ""

/-- JavaScript `a || b` on optional strings: `a` when truthy, else `b`. -/
def jsOr (a b : Option String) : Option String :=
  if strTruthy a then a else b

/-- JavaScript `s.charAt(0).toUpperCase() + s.slice(1)`. -/
def capFirst (s : String) : String :=
  match s.data with
  | [] => ""
  | c :: rest => String.mk (c.toUpper :: rest)

/-- Character-list recursion behind `strStartsWith`. -/
def strStartsWithAux : List Char → List Char → Bool
  | _, [] => true
  | [], _ :: _ => false
  | c :: cs, p :: ps => (c = p) && strStartsWithAux cs ps

/-- JavaScript `s.startsWith(pre)`. -/
def strStartsWith (s pre : String) : Bool :=
  strStartsWithAux s.data pre.data

/-- Character-list recursion behind `jsSplit`. -/
def splitCharAux (sep : Char) : List Char → List String
  | [] => [""]
  | c :: rest =>
    if c = sep then "" :: splitCharAux sep rest
    else
      match splitCharAux sep rest with
      | [] => [String.mk [c]]
      | h :: t => String.mk (c :: h.data) :: t

/-- JavaScript `s.split(sep)` for a one-character separator. -/
def jsSplit (s : String) (sep : Char) : List String :=
  splitCharAux sep s.data

/-- JavaScript `parts.join(sep)`. -/
def joinWith (sep : String) : List String → String
  | [] => ""
  | [s] => s
  | s :: rest => s ++ sep ++ joinWith sep rest

/-- The `_def.typeName` tag location (Dialect A / Zod 3). -/
def tdZDefTypeName (d : TypeDesc) : Option String :=
  d.zdef.bind (·.typeName)

/-- The `_def.type` tag location (Dialect B / Zod 4, first location). -/
def tdZDefType (d : TypeDesc) : Option String :=
  d.zdef.bind (·.type)

/-- The `def.type` tag location (Dialect B / Zod 4, second location). -/
def tdDDefType (d : TypeDesc) : Option String :=
  d.ddef.bind (·.type)

/-- `getZodTypeName` from `generate.ts`: reads
`schema?._def?.typeName || schema?._def?.type || schema?.def?.type` and
normalizes an unprefixed tag to Zod 3 naming (`"Zod" + capitalize`). -/
def getZodTypeName (input : Option TypeDesc) : Option String :=
  let typeName :=
    jsOr (jsOr (input.bind tdZDefTypeName) (input.bind tdZDefType))
      (input.bind tdDDefType)
  match typeName with
  | none => none
  | some s =>
      if s ≠ "" ∧ ¬ strStartsWith s "Zod" then
        some ("Zod" ++ capFirst s)
      else
        some s

/-- The raw shape flags serialized into the `asZodObject` error message. -/
structure ShapeFlags where
  hasZDef : Bool
  hasDef : Bool
  zDefType : Option String
  defType : Option String
  zDefTypeName : Option String
  deriving Repr, DecidableEq

/-- The flags `generate.ts` serializes when `asZodObject` throws. -/
def shapeFlags (input : TypeDesc) : ShapeFlags :=
  { hasZDef := input.zdef.isSome
    hasDef := input.ddef.isSome
    zDefType := tdZDefType input
    defType := tdDDefType input
    zDefTypeName := tdZDefTypeName input }

/-- The errors thrown by `generate.ts`: the invalid-input-shape error of
`asZodObject` (with its diagnostic payload), the invalid-schema error of
`asZodType`, and an uncaught JSON-Schema conversion failure. -/
inductive GenError : Type where
  | invalidInputShape (typeName : Option String) (flags : ShapeFlags)
  | invalidSchema
  | conversionFailure (msg : String)
  deriving Repr, DecidableEq

/-- `asZodObject` from `generate.ts`: accept only descriptors whose
canonical tag is `ZodObject`, `ZodVoid` or `ZodOptional`; otherwise throw
with the resolved tag and the raw shape flags. -/
def asZodObject (input : TypeDesc) : Except GenError TypeDesc :=
  let typeName := getZodTypeName (some input)
  if typeName ≠ some "ZodObject" ∧ typeName ≠ some "ZodVoid" ∧
      typeName ≠ some "ZodOptional" then
    .error (.invalidInputShape typeName (shapeFlags input))
  else
    .ok input

/-- `asZodType` from `generate.ts`: require a truthy resolved tag. -/
def asZodType (input : TypeDesc) : Except GenError TypeDesc :=
  if ¬ strTruthy (getZodTypeName (some input)) then
    .error .invalidSchema
  else
    .ok input

/-- The descriptor produced by `z.object({})` (empty object schema),
tagged as the schema library tags object schemas. -/
def zEmptyObject : TypeDesc :=
  .mk (some { typeName := some "ZodObject", type := none }) none none []

/-- `z.object(shape)`: an object descriptor with the given shape. -/
def zObject (shape : List (String × TypeDesc)) : TypeDesc :=
  .mk (some { typeName := some "ZodObject", type := none }) none none shape

/-- JavaScript object spread `{...a, ...b}` on shapes: keys of `a` in
order with `b`'s value on collision, then keys of `b` not already in `a`. -/
def mergeShapes (a b : List (String × TypeDesc)) : List (String × TypeDesc) :=
  (a.map fun p =>
    match b.find? (fun q => q.1 = p.1) with
    | some q => (p.1, q.2)
    | none => p) ++
    b.filter fun q => a.all fun p => p.1 ≠ q.1

/-- `ZodObject.merge` of the schema library: a fresh object schema whose
shape is the incoming-overrides spread of the two shapes. -/
def zodMerge (a b : TypeDesc) : TypeDesc :=
  zObject (mergeShapes a.shape b.shape)

/-- One step of the input-merging reduce in
`generateOpenAPIDocumentFromTRPCRouter`:
`asZodObject(acc).merge(asZodObject(cur))`. -/
def mergeStep (acc cur : TypeDesc) : Except GenError TypeDesc := do
  let a ← asZodObject acc
  let c ← asZodObject cur
  pure (zodMerge a c)

/-- The input reconciler inlined in `generateOpenAPIDocumentFromTRPCRouter`:
if `inputs[0]` resolves to `ZodArray` it is returned unchanged; otherwise
`inputs.slice(1)` is reduced by object merge starting from
`asZodObject(inputs[0] || z.object({}))`. -/
def reconcileInputs (inputs : List TypeDesc) : Except GenError TypeDesc :=
  if getZodTypeName inputs.head? = some "ZodArray" then
    .ok (inputs.headD zEmptyObject)
  else do
    let init ← asZodObject (inputs.headD zEmptyObject)
    (inputs.drop 1).foldlM mergeStep init

/-- A JSON-Schema value, abstracted as an ordered field map. -/
structure JsonSchema where
  fields : List (String × String)
  deriving Repr, DecidableEq

/-- The `const { $schema, ...output } = result` destructuring: drop the
`$schema` key, keeping every other field in order. -/
def stripSchemaKey (j : JsonSchema) : JsonSchema :=
  ⟨j.fields.filter fun p => p.1 ≠ "$schema"⟩

/-- The runtime conversion environment: `native` is Zod 4's
`z.toJSONSchema` when that capability exists (it may throw), `fallback`
is the `zod-to-json-schema` utility (it may throw, uncaught). -/
structure ConvEnv where
  native : Option (TypeDesc → Except String JsonSchema)
  fallback : TypeDesc → Except String JsonSchema

/-- `toJsonSchema` from `generate.ts`: use the native capability when
present, catching its failure and silently retrying via the fallback;
without the capability go straight to the fallback.  Both paths strip
`$schema`; a fallback failure propagates. -/
def toJsonSchema (env : ConvEnv) (input : TypeDesc) : Except String JsonSchema :=
  match env.native with
  | some nativeConv =>
      match nativeConv input with
      | .ok result => .ok (stripSchemaKey result)
      | .error _ => (env.fallback input).map stripSchemaKey
  | none => (env.fallback input).map stripSchemaKey

/-- A metadata value as it may appear in a procedure's `meta` record:
a string, a string list (`tags`), a boolean (`deprecated`), or a nested
object (`externalDocs`). -/
inductive MetaValue : Type where
  | str (s : String)
  | strList (l : List String)
  | boolVal (b : Bool)
  | obj (fields : List (String × String))
  deriving Repr, DecidableEq

/-- JavaScript truthiness of a metadata value: `""` and `false` are falsy;
arrays and objects are always truthy (even when empty). -/
def metaTruthy : MetaValue → Bool
  | .str s => s ≠ ""
  | .strList _ => true
  | .boolVal b => b
  | .obj _ => true

/-- JavaScript property assignment `m[k] = v` on an ordered string-keyed
record: overwrite in place when the key exists, else append. -/
def setKey {α : Type} (m : List (String × α)) (k : String) (v : α) :
    List (String × α) :=
  if m.any (fun p => p.1 = k) then
    m.map fun p => if p.1 = k then (k, v) else p
  else
    m ++ [(k, v)]

/-- Modelled from the spec: the `allowedOperationKeys` constant is exported
by `src/meta.ts`, which is absent from the sources; the spec fixes it as
the closed set of copyable operation-metadata keys, in agreement with the
declaration file `dist/generate.d.ts`. -/
def allowedOperationKeys : List String :=
  ["tags", "summary", "description", "externalDocs", "deprecated"]

/-- `procDef.meta?.[key]`: optional-chained lookup in the meta record. -/
def metaLookup (meta : Option (List (String × MetaValue))) (k : String) :
    Option MetaValue :=
  meta.bind fun m => m.lookup k

/-- One iteration of the metadata-copy loop in
`generateOpenAPIDocumentFromTRPCRouter`: copy `meta[key]` into the
operation info only when it is truthy. -/
def copyStep (meta : Option (List (String × MetaValue)))
    (acc : List (String × MetaValue)) (key : String) :
    List (String × MetaValue) :=
  match metaLookup meta key with
  | some v => if metaTruthy v then setKey acc key v else acc
  | none => acc

/-- `procName.split('.').slice(0, -1).slice(0, 1)`: the first dot-segment
when the name has at least two segments, else the empty list. -/
def tagsFromName (procName : String) : List String :=
  ((jsSplit procName '.').dropLast).take 1

/-- The `operationInfo` record: the name-derived `tags` entry, then the
truthy allowed metadata keys copied over it in order. -/
def buildOperationInfo (procName : String)
    (meta : Option (List (String × MetaValue))) :
    List (String × MetaValue) :=
  allowedOperationKeys.foldl (copyStep meta)
    [("tags", MetaValue.strList (tagsFromName procName))]

/-- A response object: description plus optional content, the content
being a media-type-keyed schema map. -/
structure ResponseObj where
  description : String
  content : Option (List (String × JsonSchema))
  deriving Repr, DecidableEq

/-- A parameter object: its location (`in`), name, and content map. -/
structure ParamObj where
  location : String
  name : String
  content : List (String × JsonSchema)
  deriving Repr, DecidableEq

/-- An OpenAPI operation as built by the generator. -/
structure Operation where
  operationId : String
  info : List (String × MetaValue)
  responses : List (Nat × ResponseObj)
  parameters : Option (List ParamObj)
  requestBody : Option (List (String × JsonSchema))
  deriving Repr, DecidableEq

/-- A path item: at most one of `get` / `post` is populated. -/
structure PathItem where
  get : Option Operation
  post : Option Operation
  deriving Repr, DecidableEq

/-- The generated OpenAPI document. -/
structure Document where
  openapi : String
  infoTitle : String
  infoVersion : String
  paths : List (String × PathItem)
  deriving Repr, DecidableEq

/-- A procedure definition as read off `proc._def`: the procedure type
(`query` / `mutation` / `subscription`), the declared inputs in order,
the optional output descriptor and the optional meta record. -/
structure ProcDef where
  type : String
  inputs : List TypeDesc
  output : Option TypeDesc
  meta : Option (List (String × MetaValue))

/-- Generator options: `pathPrefix` (absent means the default `/`) and the
optional `processOperation` hook, which receives the base operation and
the procedure's original meta and may return a replacement. -/
structure GenOptions where
  pathPrefix : Option String
  processOperation :
    Option (Operation → Option (List (String × MetaValue)) → Option Operation)

/-- The path key
`['', ...(options.pathPrefix || '/').split('/').filter(Boolean), procName].join('/')`. -/
def pathKey (pathPrefix : Option String) (procName : String) : String :=
  let p := match pathPrefix with
    | some s => if s = "" then "/" else s
    | none => "/"
  joinWith "/"
    ("" :: ((jsSplit p '/').filter (fun s => s ≠ "") ++ [procName]))

/-- Lift a conversion failure into the generator's error type. -/
def liftConv {α : Type} : Except String α → Except GenError α
  | .ok a => .ok a
  | .error s => .error (.conversionFailure s)

/-- The per-procedure operation construction of
`generateOpenAPIDocumentFromTRPCRouter`, before the `processOperation`
hook: reconcile the inputs, convert them, convert the enveloped output
(`z.object({ result: z.object({ data: output }) })`) when present, build
the `200` response and the metadata-filtered operation info, then emit
either the GET shape (single JSON-content query parameter named `input`)
or the POST shape (JSON request body). -/
def buildBaseOperation (env : ConvEnv) (procName : String)
    (procDef : ProcDef) : Except GenError Operation := do
  let input ← reconcileInputs procDef.inputs
  let inputSchema ← liftConv (toJsonSchema env input)
  let outPart ← match procDef.output with
    | some out => do
        let o ← asZodType out
        let s ← liftConv (toJsonSchema env
          (zObject [("result", zObject [("data", o)])]))
        pure (some (o, s))
    | none => pure none
  let responses : List (Nat × ResponseObj) := [(200,
    { description := match outPart with
        | some (o, _) => o.description.getD ""
        | none => ""
      content := match outPart with
        | some (_, s) => some [("application/json", s)]
        | none => none })]
  let info := buildOperationInfo procName procDef.meta
  if procDef.type = "query" then
    pure { operationId := procName, info := info, responses := responses
           parameters := some [{ location := "query", name := "input"
                                 content := [("application/json", inputSchema)] }]
           requestBody := none }
  else
    pure { operationId := procName, info := info, responses := responses
           parameters := none
           requestBody := some [("application/json", inputSchema)] }

/-- The per-procedure path item: apply the `processOperation` hook
(`options.processOperation?.(op, meta) || op`) to the base operation and
place the result under `get` for queries, `post` otherwise. -/
def buildProcItem (env : ConvEnv) (opts : GenOptions) (procName : String)
    (procDef : ProcDef) : Except GenError PathItem := do
  let baseOp ← buildBaseOperation env procName procDef
  let finalOp := match opts.processOperation with
    | some h => (h baseOp procDef.meta).getD baseOp
    | none => baseOp
  pure (if procDef.type = "query" then ⟨some finalOp, none⟩
        else ⟨none, some finalOp⟩)

/-- `generateOpenAPIDocumentFromTRPCRouter`: fold every procedure of the
flattened router into the paths map (`paths[key] = item`, last write
wins), then wrap with the fixed document header. -/
def generateOpenAPIDocumentFromTRPCRouter (env : ConvEnv)
    (router : List (String × ProcDef)) (opts : GenOptions) :
    Except GenError Document := do
  let paths ← router.foldlM (fun acc p => do
      let item ← buildProcItem env opts p.1 p.2
      pure (setKey acc (pathKey opts.pathPrefix p.1) item)) []
  pure { openapi := "3.0.0", infoTitle := "tRPC HTTP-RPC", infoVersion := ""
         paths := paths }

/-- Canonical-tag function implied by the normalization step of
`getZodTypeName`: a tag already carrying the `Zod` prefix is kept, any
other tag gets the prefix prepended and its first letter capitalized. -/
def canonZodName (t : String) : String :=
  if strStartsWith t "Zod" then t else "Zod" ++ capFirst t

/-- Recognizer for the invalid-input-shape error. -/
def isInvalidInputErr {α : Type} : Except GenError α → Bool
  | .error (.invalidInputShape _ _) => true
  | _ => false

/-- Fixture: an array-kind descriptor (Zod 3 tagging). -/
def sampleArrayDesc : TypeDesc :=
  .mk (some ⟨some "ZodArray", none⟩) none none []

/-- Fixture: a string-kind descriptor (Zod 3 tagging). -/
def sampleStringDesc : TypeDesc :=
  .mk (some ⟨some "ZodString", none⟩) none none []

/-- Fixture: an object-kind descriptor (Zod 3 tagging). -/
def sampleObjectDesc : TypeDesc :=
  .mk (some ⟨some "ZodObject", none⟩) none none []

/-- Fixture: an object-kind descriptor (Zod 4 tagging, `_def.type`). -/
def sampleZod4Object : TypeDesc :=
  .mk (some ⟨none, some "object"⟩) none none []

/-- Fixture: a number-kind descriptor (Zod 4 tagging, `def.type`). -/
def sampleNumberDesc : TypeDesc :=
  .mk none (some ⟨some "number"⟩) none []

/-- Fixture: a string-kind output descriptor carrying a description. -/
def sampleOutputDesc : TypeDesc :=
  .mk (some ⟨some "ZodString", none⟩) none (some "ok") []

/-- Fixture: a fallback converter that succeeds with a `$schema` field. -/
def okFallback : TypeDesc → Except String JsonSchema :=
  fun _ => .ok ⟨[("$schema", "draft"), ("type", "object")]⟩

/-- Fixture: a native converter that always throws. -/
def failNative : TypeDesc → Except String JsonSchema :=
  fun _ => .error "native conversion failed"

/-- Fixture: a native converter that succeeds. -/
def okNative : TypeDesc → Except String JsonSchema :=
  fun _ => .ok ⟨[("type", "object")]⟩

/-- Fixture: environment with a working native capability. -/
def sampleEnv : ConvEnv := ⟨some okNative, okFallback⟩

/-- Fixture: environment without the native capability. -/
def fallbackEnv : ConvEnv := ⟨none, okFallback⟩

/-- Fixture: a bare query procedure over a single object input. -/
def sampleQueryProc : ProcDef :=
  { type := "query", inputs := [sampleObjectDesc]
    output := some sampleOutputDesc, meta := none }

/-- Fixture: a bare mutation procedure over a single object input. -/
def sampleMutationProc : ProcDef :=
  { type := "mutation", inputs := [sampleObjectDesc]
    output := none, meta := none }

/-- Fixture: default generator options. -/
def defaultOpts : GenOptions := ⟨none, none⟩

/-- Fixture: the base operation built for `sampleQueryProc` at name
`ns.q` under `sampleEnv`. -/
def queryOpFixture : Operation :=
  { operationId := "ns.q"
    info := [("tags", MetaValue.strList ["ns"])]
    responses := [(200,
      { description := "ok"
        content := some [("application/json", ⟨[("type", "object")]⟩)] })]
    parameters := some [{ location := "query", name := "input"
                          content := [("application/json",
                            ⟨[("type", "object")]⟩)] }]
    requestBody := none }

/-- Fixture: the base operation built for `sampleMutationProc` at name
`m` under `sampleEnv`. -/
def mutationOpFixture : Operation :=
  { operationId := "m"
    info := [("tags", MetaValue.strList [])]
    responses := [(200, { description := "", content := none })]
    parameters := none
    requestBody := some [("application/json", ⟨[("type", "object")]⟩)] }

/-- Fixture: a hook that returns nothing. -/
def noopHook :
    Operation → Option (List (String × MetaValue)) → Option Operation :=
  fun _ _ => none

/-- Fixture: a replacement operation carrying a field outside the allowed
metadata key set. -/
def securityFixture : Operation :=
  { operationId := "sec"
    info := [("security", MetaValue.str "apiKey")]
    responses := [], parameters := none, requestBody := none }

/-- Fixture: a hook that replaces the operation wholesale. -/
def replaceHook :
    Operation → Option (List (String × MetaValue)) → Option Operation :=
  fun _ _ => some securityFixture

/-- Fixture: a procedure whose second input is a number schema, which can
never merge into an object. -/
def badSecondInputProc : ProcDef :=
  { type := "query", inputs := [sampleObjectDesc, sampleNumberDesc]
    output := none, meta := none }

section Lemmas

/-- Unfolding of `getZodTypeName` on a present descriptor. -/
theorem getZodTypeName_some (d : TypeDesc) :
    getZodTypeName (some d) =
      match jsOr (jsOr (tdZDefTypeName d) (tdZDefType d)) (tdDDefType d) with
      | none => none
      | some s =>
          if s ≠ "" ∧ ¬ strStartsWith s "Zod" then some ("Zod" ++ capFirst s)
          else some s := rfl

/-- A truthy left operand wins `||`. -/
theorem jsOr_of_truthy (a b : Option String) (h : strTruthy a = true) :
    jsOr a b = a := by
  simp [jsOr, h]

/-- A falsy left operand yields the right operand of `||`. -/
theorem jsOr_of_falsy (a b : Option String) (h : strTruthy a = false) :
    jsOr a b = b := by
  simp [jsOr, h]

end Lemmas

/-- C1: `getZodTypeName` reads the kind tag in priority order —
`_def.typeName` (Dialect A) first, then `_def.type`, then `def.type`
(Dialect B); a tag found without the `Zod` prefix is canonicalized by
prepending the prefix and capitalizing the first letter (so "object"
becomes "ZodObject"); and with no tag at any of the three locations the
result is `undefined`. -/
theorem getZodTypeName_dialect_priority (d : TypeDesc) :
    (∀ t, t ≠ "" → tdZDefTypeName d = some t →
        getZodTypeName (some d) = some (canonZodName t)) ∧
    (strTruthy (tdZDefTypeName d) = false →
      ∀ t, t ≠ "" → tdZDefType d = some t →
        getZodTypeName (some d) = some (canonZodName t)) ∧
    (strTruthy (tdZDefTypeName d) = false →
      strTruthy (tdZDefType d) = false →
      ∀ t, t ≠ "" → tdDDefType d = some t →
        getZodTypeName (some d) = some (canonZodName t)) ∧
    (tdZDefTypeName d = none → tdZDefType d = none → tdDDefType d = none →
      getZodTypeName (some d) = none) ∧
    canonZodName "object" = "ZodObject" := by
  refine ⟨?_, ?_, ?_, ?_, by decide⟩
  · intro t ht hd
    have htr : strTruthy (tdZDefTypeName d) = true := by
      rw [hd]; simpa [strTruthy] using ht
    have h2 : jsOr (jsOr (tdZDefTypeName d) (tdZDefType d)) (tdDDefType d) =
        some t := by
      rw [jsOr_of_truthy _ _ (by rw [jsOr_of_truthy _ _ htr]; exact htr),
        jsOr_of_truthy _ _ htr, hd]
    rw [getZodTypeName_some, h2]
    by_cases hz : strStartsWith t "Zod" = true
    · simp [canonZodName, hz, ht]
    · simp [canonZodName, hz, ht]
  · intro hf t ht hd
    have htr : strTruthy (tdZDefType d) = true := by
      rw [hd]; simpa [strTruthy] using ht
    have h2 : jsOr (jsOr (tdZDefTypeName d) (tdZDefType d)) (tdDDefType d) =
        some t := by
      rw [jsOr_of_truthy _ _ (by rw [jsOr_of_falsy _ _ hf]; exact htr),
        jsOr_of_falsy _ _ hf, hd]
    rw [getZodTypeName_some, h2]
    by_cases hz : strStartsWith t "Zod" = true
    · simp [canonZodName, hz, ht]
    · simp [canonZodName, hz, ht]
  · intro hf1 hf2 t ht hd
    have h2 : jsOr (jsOr (tdZDefTypeName d) (tdZDefType d)) (tdDDefType d) =
        some t := by
      rw [jsOr_of_falsy _ _ (by rw [jsOr_of_falsy _ _ hf1]; exact hf2), hd]
    rw [getZodTypeName_some, h2]
    by_cases hz : strStartsWith t "Zod" = true
    · simp [canonZodName, hz, ht]
    · simp [canonZodName, hz, ht]
  · intro h1 h2 h3
    rw [getZodTypeName_some, h1, h2, h3]
    simp [jsOr, strTruthy]

/-- Witness for C1 at concrete descriptors of each dialect. -/
theorem getZodTypeName_dialect_priority_witness :
    getZodTypeName (some sampleStringDesc) = some "ZodString" ∧
    getZodTypeName (some sampleZod4Object) = some "ZodObject" ∧
    getZodTypeName (some sampleNumberDesc) = some "ZodNumber" ∧
    getZodTypeName (some (.mk none none none [])) = none := by
  refine ⟨?_, ?_, ?_, ?_⟩
  · exact ((getZodTypeName_dialect_priority sampleStringDesc).1 "ZodString"
      (by decide) rfl).trans (by decide)
  · exact ((getZodTypeName_dialect_priority sampleZod4Object).2.1 (by decide)
      "object" (by decide) rfl).trans (by decide)
  · exact ((getZodTypeName_dialect_priority sampleNumberDesc).2.2.1 (by decide)
      (by decide) "number" (by decide) rfl).trans (by decide)
  · exact (getZodTypeName_dialect_priority (.mk none none none [])).2.2.2.1
      rfl rfl rfl

/-- C2: `toJsonSchema` attempts the native capability first when it is
present; uses the fallback converter when it is absent; and when the
native capability throws, the failure is silently retried via the
fallback — only a fallback failure propagates.  Both paths strip the
`$schema` key. -/
theorem toJsonSchema_native_fallback :
    (∀ (f fb : TypeDesc → Except String JsonSchema) (d : TypeDesc)
        (r : JsonSchema), f d = .ok r →
        toJsonSchema ⟨some f, fb⟩ d = .ok (stripSchemaKey r)) ∧
    (∀ (fb : TypeDesc → Except String JsonSchema) (d : TypeDesc),
        toJsonSchema ⟨none, fb⟩ d = (fb d).map stripSchemaKey) ∧
    (∀ (f fb : TypeDesc → Except String JsonSchema) (d : TypeDesc)
        (e : String), f d = .error e →
        toJsonSchema ⟨some f, fb⟩ d = (fb d).map stripSchemaKey) := by
  refine ⟨?_, ?_, ?_⟩
  · intro f fb d r h
    simp [toJsonSchema, h]
  · intro fb d
    rfl
  · intro f fb d e h
    simp [toJsonSchema, h]

/-- Witness for C2: a throwing native capability is silently recovered by
the fallback, with `$schema` stripped. -/
theorem toJsonSchema_native_fallback_witness :
    toJsonSchema ⟨some failNative, okFallback⟩ sampleObjectDesc =
      .ok ⟨[("type", "object")]⟩ ∧
    toJsonSchema ⟨some okNative, okFallback⟩ sampleObjectDesc =
      .ok ⟨[("type", "object")]⟩ := by
  constructor
  · exact (toJsonSchema_native_fallback.2.2 failNative okFallback
      sampleObjectDesc "native conversion failed" rfl).trans rfl
  · exact (toJsonSchema_native_fallback.1 okNative okFallback
      sampleObjectDesc ⟨[("type", "object")]⟩ rfl).trans rfl

/-- C3: a procedure whose first input resolves to kind array is returned
unchanged as the effective input — none of the subsequent input
descriptors is merged into it. -/
theorem reconcileInputs_array_passthrough (inputs : List TypeDesc)
    (d : TypeDesc) (hd : inputs.head? = some d)
    (harr : getZodTypeName (some d) = some "ZodArray") :
    reconcileInputs inputs = .ok d := by
  cases inputs with
  | nil => simp at hd
  | cons a t =>
    obtain rfl : a = d := by simpa using hd
    simp [reconcileInputs, harr]

/-- Witness for C3: an array first input passes through unchanged past a
string-kind second input that could never merge. -/
theorem reconcileInputs_array_passthrough_witness :
    reconcileInputs [sampleArrayDesc, sampleStringDesc] = .ok sampleArrayDesc :=
  reconcileInputs_array_passthrough [sampleArrayDesc, sampleStringDesc]
    sampleArrayDesc rfl (by decide)

/-- C10: a present first input that is not array-kind is itself passed
through the object/void/optional kind check (as the seed of the merge
reduce), so a first descriptor of any other kind raises the
invalid-input-shape error even with no subsequent inputs. -/
theorem first_input_kind_checked (inputs : List TypeDesc) (d : TypeDesc)
    (hd : inputs.head? = some d)
    (hna : getZodTypeName (some d) ≠ some "ZodArray")
    (h1 : getZodTypeName (some d) ≠ some "ZodObject")
    (h2 : getZodTypeName (some d) ≠ some "ZodVoid")
    (h3 : getZodTypeName (some d) ≠ some "ZodOptional") :
    reconcileInputs inputs =
      .error (.invalidInputShape (getZodTypeName (some d)) (shapeFlags d)) := by
  cases inputs with
  | nil => simp at hd
  | cons a t =>
    obtain rfl : a = d := by simpa using hd
    have herr : asZodObject a =
        .error (.invalidInputShape (getZodTypeName (some a)) (shapeFlags a)) := by
      simp [asZodObject, h1, h2, h3]
    simp [reconcileInputs, hna, herr, bind, Except.bind]

/-- Witness for C10: a lone string-kind first input fails the shape check
with its resolved kind and raw flags in the payload. -/
theorem first_input_kind_checked_witness :
    reconcileInputs [sampleStringDesc] =
      .error (.invalidInputShape (some "ZodString")
        ⟨true, false, none, none, some "ZodString"⟩) := by
  have h := first_input_kind_checked [sampleStringDesc] sampleStringDesc rfl
    (by decide) (by decide) (by decide) (by decide)
  exact h.trans rfl

/-- C6: the operation's path is the `/`-join of `''`, the prefix split on
`/` with empty segments removed, and the dotted name (default prefix
`/` contributing no segments); hence the prefixes `/api/v1`, `api/v1/`
and `/api//v1/` all produce the identical path, and a generated document
stores the operation under exactly that key. -/
theorem pathKey_prefix_segmentation :
    (∀ pref name, pref ≠ "" →
        pathKey (some pref) name =
          joinWith "/"
            ("" :: ((jsSplit pref '/').filter (fun s => s ≠ "") ++ [name]))) ∧
    (∀ name, pathKey none name = "/" ++ name) ∧
    (∀ name, pathKey (some "/api/v1") name = pathKey (some "api/v1/") name) ∧
    (∀ name, pathKey (some "api/v1/") name = pathKey (some "/api//v1/") name) ∧
    (∀ env opts name pd doc,
        generateOpenAPIDocumentFromTRPCRouter env [(name, pd)] opts = .ok doc →
        ∃ item, doc.paths = [(pathKey opts.pathPrefix name, item)]) := by
  refine ⟨?_, ?_, ?_, ?_, ?_⟩
  · intro pref name hne
    simp [pathKey, hne]
  · intro name
    obtain ⟨l⟩ := name
    rfl
  · intro name
    rfl
  · intro name
    rfl
  · intro env opts name pd doc h
    cases hb : buildProcItem env opts name pd with
    | error e =>
        rw [generateOpenAPIDocumentFromTRPCRouter] at h
        simp [hb, bind, Except.bind] at h
    | ok item =>
        refine ⟨item, ?_⟩
        rw [generateOpenAPIDocumentFromTRPCRouter] at h
        simp [hb, bind, Except.bind, setKey, pure, Except.pure] at h
        rw [← h]

/-- Witness for C6 at a concrete prefix and name. -/
theorem pathKey_prefix_segmentation_witness :
    pathKey (some "/api/v1") "hello.world" =
      pathKey (some "/api//v1/") "hello.world" ∧
    pathKey (some "/trpc") "hello" = "/trpc/hello" := by
  constructor
  · exact (pathKey_prefix_segmentation.2.2.1 "hello.world").trans
      (pathKey_prefix_segmentation.2.2.2.1 "hello.world")
  · exact (pathKey_prefix_segmentation.1 "/trpc" "hello" (by decide)).trans rfl

section LookupLemmas

/-- Appending a fresh key at the end makes it findable. -/
theorem lookup_append_single {α : Type} (m : List (String × α)) (k : String)
    (v : α) (h : m.any (fun p => p.1 = k) = false) :
    (m ++ [(k, v)]).lookup k = some v := by
  induction m with
  | nil => simp [List.lookup_cons]
  | cons p t ih =>
    obtain ⟨a, b⟩ := p
    simp only [List.any_cons, Bool.or_eq_false_iff,
      decide_eq_false_iff_not] at h
    have h1 : a ≠ k := h.1
    rw [List.cons_append, List.lookup_cons, beq_false_of_ne (Ne.symm h1)]
    exact ih h.2

/-- Lookup after in-place overwrite at the overwritten key. -/
theorem lookup_map_setVal {α : Type} (m : List (String × α)) (k : String)
    (v : α) :
    ((m.map fun p => if p.1 = k then (k, v) else p).lookup k) =
      (m.lookup k).map fun _ => v := by
  induction m with
  | nil => rfl
  | cons p t ih =>
    obtain ⟨a, b⟩ := p
    by_cases hp : a = k
    · subst hp
      rw [List.map_cons,
        show (if (a, b).1 = a then (a, v) else (a, b)) = (a, v) from
          if_pos rfl,
        List.lookup_cons, List.lookup_cons, beq_self_eq_true]
      rfl
    · rw [List.map_cons,
        show (if (a, b).1 = k then (k, v) else (a, b)) = (a, b) from
          if_neg hp,
        List.lookup_cons, List.lookup_cons, beq_false_of_ne (Ne.symm hp)]
      exact ih

/-- A present key forces a successful lookup. -/
theorem lookup_isSome_of_any {α : Type} (m : List (String × α)) (k : String)
    (h : m.any (fun p => p.1 = k) = true) :
    ∃ w, m.lookup k = some w := by
  induction m with
  | nil => simp at h
  | cons p t ih =>
    obtain ⟨a, b⟩ := p
    by_cases hp : a = k
    · subst hp
      exact ⟨b, by rw [List.lookup_cons, beq_self_eq_true]⟩
    · simp only [List.any_cons, Bool.or_eq_true_iff, decide_eq_true_iff] at h
      obtain ⟨w, hw⟩ := ih (by simpa [hp] using h)
      refine ⟨w, ?_⟩
      rw [List.lookup_cons, beq_false_of_ne (Ne.symm hp)]
      exact hw

/-- `setKey` stores the assigned value. -/
theorem lookup_setKey_self {α : Type} (m : List (String × α)) (k : String)
    (v : α) : (setKey m k v).lookup k = some v := by
  rw [setKey]
  by_cases hm : m.any (fun p => p.1 = k) = true
  · rw [if_pos hm]
    obtain ⟨w, hw⟩ := lookup_isSome_of_any m k hm
    rw [lookup_map_setVal, hw]
    rfl
  · rw [if_neg hm]
    exact lookup_append_single m k v (Bool.eq_false_iff.mpr hm)

/-- `setKey` leaves every other key unchanged. -/
theorem lookup_setKey_ne {α : Type} (m : List (String × α)) (k k' : String)
    (v : α) (h : k' ≠ k) : (setKey m k v).lookup k' = m.lookup k' := by
  rw [setKey]
  by_cases hm : m.any (fun p => p.1 = k) = true
  · rw [if_pos hm]
    clear hm
    induction m with
    | nil => rfl
    | cons p t ih =>
      obtain ⟨a, b⟩ := p
      by_cases hp : a = k
      · subst hp
        rw [List.map_cons,
          show (if (a, b).1 = a then (a, v) else (a, b)) = (a, v) from
            if_pos rfl,
          List.lookup_cons, List.lookup_cons, beq_false_of_ne h]
        exact ih
      · rw [List.map_cons,
          show (if (a, b).1 = k then (k, v) else (a, b)) = (a, b) from
            if_neg hp,
          List.lookup_cons, List.lookup_cons]
        cases hb : k' == a
        · exact ih
        · rfl
  · rw [if_neg hm]
    clear hm
    induction m with
    | nil =>
      rw [List.nil_append, List.lookup_cons, beq_false_of_ne h]
    | cons p t ih =>
      obtain ⟨a, b⟩ := p
      rw [List.cons_append, List.lookup_cons, List.lookup_cons]
      cases hb : k' == a
      · exact ih
      · rfl

/-- Keys never touched by the metadata-copy fold keep their base value. -/
theorem lookup_copy_of_not_mem (ks : List String)
    (meta : Option (List (String × MetaValue)))
    (base : List (String × MetaValue)) (k : String) (hk : k ∉ ks) :
    ((ks.foldl (copyStep meta) base).lookup k) = base.lookup k := by
  induction ks generalizing base with
  | nil => rfl
  | cons k0 t ih =>
    have hne : k ≠ k0 := fun h => hk (h ▸ List.mem_cons_self k0 t)
    have ht : k ∉ t := fun h => hk (List.mem_cons_of_mem k0 h)
    rw [List.foldl_cons, ih _ ht]
    rw [copyStep]
    cases metaLookup meta k0 with
    | none => rfl
    | some v =>
      by_cases hv : metaTruthy v = true
      · simp only [if_pos hv]
        exact lookup_setKey_ne _ _ _ _ hne
      · simp only [if_neg hv]

/-- The metadata-copy fold implements truthiness-filtered copy for every
key it visits (visited keys assumed distinct). -/
theorem lookup_copy_of_mem (ks : List String)
    (meta : Option (List (String × MetaValue)))
    (base : List (String × MetaValue)) (k : String) (hk : k ∈ ks)
    (hnd : ks.Nodup) :
    ((ks.foldl (copyStep meta) base).lookup k) =
      match metaLookup meta k with
      | some v => if metaTruthy v then some v else base.lookup k
      | none => base.lookup k := by
  induction ks generalizing base with
  | nil => cases hk
  | cons k0 t ih =>
    rw [List.nodup_cons] at hnd
    rw [List.foldl_cons]
    rcases List.mem_cons.mp hk with rfl | hkt
    · rw [lookup_copy_of_not_mem t meta _ k hnd.1]
      rw [copyStep]
      cases metaLookup meta k with
      | none => rfl
      | some v =>
        by_cases hv : metaTruthy v = true
        · simp only [if_pos hv, lookup_setKey_self]
        · simp [hv]
    · have hne : k ≠ k0 := fun h => hnd.1 (h ▸ hkt)
      rw [ih _ hkt hnd.2]
      rw [copyStep]
      cases metaLookup meta k0 with
      | none => rfl
      | some v =>
        by_cases hv : metaTruthy v = true
        · simp only [if_pos hv, lookup_setKey_ne _ _ _ _ hne]
        · simp only [if_neg hv]

end LookupLemmas

/-- C8: exactly the fixed allowed metadata keys (tags, summary,
description, externalDocs, deprecated) are considered for copying from
`meta` into the operation; each is copied only when truthy (falsy or
absent values leave the base entry — for `tags` the name-derived value,
for the rest nothing); keys outside the allowed set are dropped silently. -/
theorem meta_copy_filter (name : String)
    (meta : Option (List (String × MetaValue))) :
    (∀ k, k ∉ allowedOperationKeys →
        (buildOperationInfo name meta).lookup k = none) ∧
    (∀ k, k ∈ allowedOperationKeys →
        (buildOperationInfo name meta).lookup k =
          match metaLookup meta k with
          | some v =>
              if metaTruthy v then some v
              else [("tags", MetaValue.strList (tagsFromName name))].lookup k
          | none =>
              [("tags", MetaValue.strList (tagsFromName name))].lookup k) ∧
    allowedOperationKeys =
      ["tags", "summary", "description", "externalDocs", "deprecated"] := by
  refine ⟨?_, ?_, rfl⟩
  · intro k hk
    rw [buildOperationInfo, lookup_copy_of_not_mem _ _ _ _ hk]
    have hne : k ≠ "tags" := fun h => hk (h ▸ (by decide))
    rw [List.lookup_cons, beq_false_of_ne hne]
    rfl
  · intro k hk
    rw [buildOperationInfo, lookup_copy_of_mem _ _ _ _ hk (by decide)]

/-- Witness for C8: an unknown key is dropped, a truthy allowed key is
copied, a falsy allowed key is omitted. -/
theorem meta_copy_filter_witness :
    (buildOperationInfo "hello.world"
        (some [("summary", .str "s"), ("junk", .str "j"),
               ("deprecated", .boolVal false)])).lookup "junk" = none ∧
    (buildOperationInfo "hello.world"
        (some [("summary", .str "s"), ("junk", .str "j"),
               ("deprecated", .boolVal false)])).lookup "summary" =
      some (.str "s") ∧
    (buildOperationInfo "hello.world"
        (some [("summary", .str "s"), ("junk", .str "j"),
               ("deprecated", .boolVal false)])).lookup "deprecated" = none := by
  refine ⟨?_, ?_, ?_⟩
  · exact (meta_copy_filter "hello.world" _).1 "junk" (by decide)
  · exact ((meta_copy_filter "hello.world" _).2.1 "summary" (by decide)).trans
      rfl
  · exact ((meta_copy_filter "hello.world" _).2.1 "deprecated"
      (by decide)).trans rfl

section BuildLemmas

/-- `asZodType` returns its input unchanged on success. -/
theorem asZodType_ok_eq (d x : TypeDesc) (h : asZodType d = .ok x) : x = d := by
  rw [asZodType] at h
  by_cases hc : ¬ strTruthy (getZodTypeName (some d)) = true
  · rw [if_pos hc] at h
    cases h
  · rw [if_neg hc] at h
    exact (Except.ok.inj h).symm

/-- `asZodObject` returns its input unchanged on success. -/
theorem asZodObject_ok_eq (d x : TypeDesc) (h : asZodObject d = .ok x) :
    x = d := by
  rw [asZodObject] at h
  by_cases hc : getZodTypeName (some d) ≠ some "ZodObject" ∧
      getZodTypeName (some d) ≠ some "ZodVoid" ∧
      getZodTypeName (some d) ≠ some "ZodOptional"
  · rw [if_pos hc] at h
    cases h
  · rw [if_neg hc] at h
    exact (Except.ok.inj h).symm

/-- Every `asZodObject` failure carries the offender's resolved kind and
raw shape flags. -/
theorem asZodObject_error_eq (d : TypeDesc) (e : GenError)
    (h : asZodObject d = .error e) :
    e = .invalidInputShape (getZodTypeName (some d)) (shapeFlags d) := by
  rw [asZodObject] at h
  by_cases hc : getZodTypeName (some d) ≠ some "ZodObject" ∧
      getZodTypeName (some d) ≠ some "ZodVoid" ∧
      getZodTypeName (some d) ≠ some "ZodOptional"
  · rw [if_pos hc] at h
    exact (Except.error.inj h).symm
  · rw [if_neg hc] at h
    cases h

/-- Merged object schemas always pass the object check. -/
theorem asZodObject_zodMerge (a b : TypeDesc) :
    asZodObject (zodMerge a b) = .ok (zodMerge a b) := rfl

/-- Inversion of a successful `buildBaseOperation`: the reconciled input
converts to the carried input schema, the structural fields follow the
procedure type, and the `200` response carries the enveloped output. -/
theorem buildBaseOperation_inv (env : ConvEnv) (name : String) (pd : ProcDef)
    (op : Operation) (h : buildBaseOperation env name pd = .ok op) :
    ∃ input s, reconcileInputs pd.inputs = .ok input ∧
      toJsonSchema env input = .ok s ∧
      op.operationId = name ∧
      op.info = buildOperationInfo name pd.meta ∧
      (pd.type = "query" →
          op.parameters =
            some [{ location := "query", name := "input"
                    content := [("application/json", s)] }] ∧
          op.requestBody = none) ∧
      (pd.type ≠ "query" →
          op.parameters = none ∧
          op.requestBody = some [("application/json", s)]) ∧
      ∃ r, op.responses = [(200, r)] ∧
        (pd.output = none → r = ⟨"", none⟩) ∧
        (∀ out, pd.output = some out →
            ∃ es, toJsonSchema env
                (zObject [("result", zObject [("data", out)])]) = .ok es ∧
              r = ⟨out.description.getD "", some [("application/json", es)]⟩) := by
  rw [buildBaseOperation] at h
  cases hi : reconcileInputs pd.inputs with
  | error e =>
    rw [hi] at h
    simp [bind, Except.bind] at h
  | ok input =>
    rw [hi] at h
    simp only [bind, Except.bind] at h
    cases his : toJsonSchema env input with
    | error e =>
      rw [his] at h
      simp [liftConv] at h
    | ok s =>
      rw [his] at h
      simp only [liftConv] at h
      refine ⟨input, s, rfl, his, ?_⟩
      cases ho : pd.output with
      | none =>
        rw [ho] at h
        simp only [pure, Except.pure] at h
        by_cases ht : pd.type = "query"
        · rw [if_pos ht] at h
          obtain rfl := Except.ok.inj h
          refine ⟨rfl, rfl, fun _ => ⟨rfl, rfl⟩, fun hq => absurd ht hq, ?_⟩
          exact ⟨⟨"", none⟩, rfl, fun _ => rfl, fun out hout => by cases hout⟩
        · rw [if_neg ht] at h
          obtain rfl := Except.ok.inj h
          refine ⟨rfl, rfl, fun hq => absurd hq ht, fun _ => ⟨rfl, rfl⟩, ?_⟩
          exact ⟨⟨"", none⟩, rfl, fun _ => rfl, fun out hout => by cases hout⟩
      | some out =>
        rw [ho] at h
        dsimp only at h
        cases hat : asZodType out with
        | error e =>
          rw [hat] at h
          simp [bind, Except.bind] at h
        | ok o =>
          obtain rfl : o = out := asZodType_ok_eq out o hat
          rw [hat] at h
          simp only [bind, Except.bind] at h
          cases hes : toJsonSchema env
              (zObject [("result", zObject [("data", o)])]) with
          | error e =>
            rw [hes] at h
            simp [liftConv] at h
          | ok es =>
            rw [hes] at h
            simp only [liftConv, pure, Except.pure] at h
            by_cases ht : pd.type = "query"
            · rw [if_pos ht] at h
              obtain rfl := Except.ok.inj h
              refine ⟨rfl, rfl, fun _ => ⟨rfl, rfl⟩, fun hq => absurd ht hq, ?_⟩
              refine ⟨_, rfl, ?_, ?_⟩
              · intro hnone
                cases hnone
              · intro out' hout
                obtain rfl : out' = o := (Option.some.inj hout).symm
                exact ⟨es, hes, rfl⟩
            · rw [if_neg ht] at h
              obtain rfl := Except.ok.inj h
              refine ⟨rfl, rfl, fun hq => absurd hq ht, fun _ => ⟨rfl, rfl⟩, ?_⟩
              refine ⟨_, rfl, ?_, ?_⟩
              · intro hnone
                cases hnone
              · intro out' hout
                obtain rfl : out' = o := (Option.some.inj hout).symm
                exact ⟨es, hes, rfl⟩

end BuildLemmas

/-- C5: a query procedure's operation goes under GET and carries exactly
one query parameter named `input` whose value is the effective input
schema as JSON-encoded content; every other procedure kind goes under
POST with the effective input schema as the JSON request body. -/
theorem query_get_mutation_post (env : ConvEnv) (opts : GenOptions)
    (name : String) (pd : ProcDef) (op : Operation) (input : TypeDesc)
    (s : JsonSchema)
    (h : buildBaseOperation env name pd = .ok op)
    (hi : reconcileInputs pd.inputs = .ok input)
    (his : toJsonSchema env input = .ok s) :
    (pd.type = "query" →
        op.parameters =
          some [{ location := "query", name := "input"
                  content := [("application/json", s)] }] ∧
        op.requestBody = none) ∧
    (pd.type ≠ "query" →
        op.requestBody = some [("application/json", s)] ∧
        op.parameters = none) ∧
    (∀ item, buildProcItem env opts name pd = .ok item →
        (pd.type = "query" → item.post = none ∧ item.get.isSome = true) ∧
        (pd.type ≠ "query" → item.get = none ∧ item.post.isSome = true)) := by
  obtain ⟨input', s', hi', his', _, _, hq, hnq, _⟩ :=
    buildBaseOperation_inv env name pd op h
  obtain rfl : input' = input := Except.ok.inj (hi'.symm.trans hi)
  obtain rfl : s' = s := Except.ok.inj (his'.symm.trans his)
  refine ⟨fun ht => hq ht, fun ht => ⟨(hnq ht).2, (hnq ht).1⟩, ?_⟩
  intro item hitem
  rw [buildProcItem, h] at hitem
  simp only [bind, Except.bind, pure, Except.pure] at hitem
  by_cases ht : pd.type = "query"
  · rw [if_pos ht] at hitem
    obtain rfl := Except.ok.inj hitem
    exact ⟨fun _ => ⟨rfl, rfl⟩, fun hq' => absurd ht hq'⟩
  · rw [if_neg ht] at hitem
    obtain rfl := Except.ok.inj hitem
    exact ⟨fun hq' => absurd hq' ht, fun _ => ⟨rfl, rfl⟩⟩

/-- Witness for C5 at a concrete query and a concrete mutation. -/
theorem query_get_mutation_post_witness :
    (queryOpFixture.parameters =
        some [{ location := "query", name := "input"
                content := [("application/json", ⟨[("type", "object")]⟩)] }] ∧
      queryOpFixture.requestBody = none) ∧
    (mutationOpFixture.requestBody =
        some [("application/json", ⟨[("type", "object")]⟩)] ∧
      mutationOpFixture.parameters = none) ∧
    ∃ item, buildProcItem sampleEnv defaultOpts "ns.q" sampleQueryProc =
        .ok item ∧ item.post = none := by
  refine ⟨?_, ?_, ?_⟩
  · exact (query_get_mutation_post sampleEnv defaultOpts "ns.q"
      sampleQueryProc queryOpFixture sampleObjectDesc ⟨[("type", "object")]⟩
      rfl rfl rfl).1 rfl
  · exact (query_get_mutation_post sampleEnv defaultOpts "m"
      sampleMutationProc mutationOpFixture sampleObjectDesc
      ⟨[("type", "object")]⟩ rfl rfl rfl).2.1 (by decide)
  · refine ⟨_, rfl, ?_⟩
    exact (((query_get_mutation_post sampleEnv defaultOpts "ns.q"
      sampleQueryProc queryOpFixture sampleObjectDesc ⟨[("type", "object")]⟩
      rfl rfl rfl).2.2 _ rfl).1 rfl).1

/-- C7: every operation's responses hold exactly status 200; its
description is the output descriptor's own description (empty when
absent); a present output is wrapped in the envelope
`{ result: { data: output } }` before JSON-Schema conversion and attached
as the `application/json` response content; with no output the response
has a description only and no content. -/
theorem responses_envelope (env : ConvEnv) (name : String) (pd : ProcDef)
    (op : Operation) (h : buildBaseOperation env name pd = .ok op) :
    ∃ r, op.responses = [(200, r)] ∧
      (pd.output = none → r.description = "" ∧ r.content = none) ∧
      (∀ out, pd.output = some out →
          r.description = out.description.getD "" ∧
          ∃ es, toJsonSchema env
              (zObject [("result", zObject [("data", out)])]) = .ok es ∧
            r.content = some [("application/json", es)]) := by
  obtain ⟨input, s, hi, his, _, _, _, _, r, hr, hnone, hsome⟩ :=
    buildBaseOperation_inv env name pd op h
  refine ⟨r, hr, ?_, ?_⟩
  · intro ho
    rw [hnone ho]
    exact ⟨rfl, rfl⟩
  · intro out hout
    obtain ⟨es, hes, hre⟩ := hsome out hout
    rw [hre]
    exact ⟨rfl, es, hes, rfl⟩

/-- Witness for C7: the sample query's 200 response carries the output's
own description and the enveloped output schema; the sample mutation's
200 response is description-only. -/
theorem responses_envelope_witness :
    (∃ r, queryOpFixture.responses = [(200, r)] ∧
      r.description = sampleOutputDesc.description.getD "" ∧
      ∃ es, toJsonSchema sampleEnv
          (zObject [("result", zObject [("data", sampleOutputDesc)])]) =
            .ok es ∧
        r.content = some [("application/json", es)]) ∧
    ∃ r, mutationOpFixture.responses = [(200, r)] ∧
      r.description = "" ∧ r.content = none := by
  constructor
  · obtain ⟨r, hr, _, hsome⟩ := responses_envelope sampleEnv "ns.q"
      sampleQueryProc queryOpFixture rfl
    obtain ⟨hdesc, es, hes, hcont⟩ := hsome sampleOutputDesc rfl
    exact ⟨r, hr, hdesc, es, hes, hcont⟩
  · obtain ⟨r, hr, hnone, _⟩ := responses_envelope sampleEnv "m"
      sampleMutationProc mutationOpFixture rfl
    exact ⟨r, hr, (hnone rfl).1, (hnone rfl).2⟩

/-- C9: the `processOperation` hook runs after the base operation is
built and receives the original unfiltered meta; a returned value
replaces the stored operation, a `undefined` return keeps the base
operation. -/
theorem processOperation_hook (env : ConvEnv) (opts : GenOptions)
    (name : String) (pd : ProcDef) (baseOp : Operation)
    (hook : Operation → Option (List (String × MetaValue)) → Option Operation)
    (hb : buildBaseOperation env name pd = .ok baseOp)
    (hh : opts.processOperation = some hook) :
    (hook baseOp pd.meta = none →
        buildProcItem env opts name pd =
          .ok (if pd.type = "query" then ⟨some baseOp, none⟩
               else ⟨none, some baseOp⟩)) ∧
    (∀ newOp, hook baseOp pd.meta = some newOp →
        buildProcItem env opts name pd =
          .ok (if pd.type = "query" then ⟨some newOp, none⟩
               else ⟨none, some newOp⟩)) := by
  constructor
  · intro hn
    rw [buildProcItem, hb]
    simp only [bind, Except.bind, hh, hn, Option.getD_none]
    rfl
  · intro newOp hs
    rw [buildProcItem, hb]
    simp only [bind, Except.bind, hh, hs, Option.getD_some]
    rfl

/-- Witness for C9: a none-returning hook keeps the base operation, a
replacing hook swaps in an operation carrying a key outside the allowed
metadata set. -/
theorem processOperation_hook_witness :
    buildProcItem sampleEnv ⟨none, some noopHook⟩ "ns.q" sampleQueryProc =
      .ok ⟨some queryOpFixture, none⟩ ∧
    buildProcItem sampleEnv ⟨none, some replaceHook⟩ "ns.q" sampleQueryProc =
      .ok ⟨some securityFixture, none⟩ := by
  constructor
  · exact ((processOperation_hook sampleEnv ⟨none, some noopHook⟩ "ns.q"
      sampleQueryProc queryOpFixture noopHook rfl rfl).1 rfl).trans rfl
  · exact ((processOperation_hook sampleEnv ⟨none, some replaceHook⟩ "ns.q"
      sampleQueryProc queryOpFixture replaceHook rfl rfl).2 securityFixture
      rfl).trans rfl

section FoldLemmas

/-- A successful merge step passes both operands through the object check
and produces their merge. -/
theorem mergeStep_ok_inv (acc cur acc' : TypeDesc)
    (h : mergeStep acc cur = .ok acc') :
    asZodObject acc = .ok acc ∧ asZodObject cur = .ok cur ∧
      acc' = zodMerge acc cur := by
  rw [mergeStep] at h
  cases ha : asZodObject acc with
  | error e =>
    rw [ha] at h
    simp [bind, Except.bind] at h
  | ok a =>
    obtain rfl : a = acc := asZodObject_ok_eq acc a ha
    rw [ha] at h
    simp only [bind, Except.bind] at h
    cases hc : asZodObject cur with
    | error e =>
      rw [hc] at h
      simp [bind, Except.bind] at h
    | ok c =>
      obtain rfl : c = cur := asZodObject_ok_eq cur c hc
      rw [hc] at h
      simp only [bind, Except.bind, pure, Except.pure] at h
      exact ⟨rfl, rfl, (Except.ok.inj h).symm⟩

/-- A failing merge step fails in one of its two object checks. -/
theorem mergeStep_error_inv (acc cur : TypeDesc) (e : GenError)
    (h : mergeStep acc cur = .error e) :
    asZodObject acc = .error e ∨
      (asZodObject acc = .ok acc ∧ asZodObject cur = .error e) := by
  rw [mergeStep] at h
  cases ha : asZodObject acc with
  | error e' =>
    rw [ha] at h
    simp only [bind, Except.bind] at h
    exact .inl h
  | ok a =>
    obtain rfl : a = acc := asZodObject_ok_eq acc a ha
    rw [ha] at h
    simp only [bind, Except.bind] at h
    cases hc : asZodObject cur with
    | error e' =>
      rw [hc] at h
      simp only [bind, Except.bind] at h
      exact .inr ⟨rfl, h⟩
    | ok c =>
      rw [hc] at h
      simp [bind, Except.bind, pure, Except.pure] at h

/-- A bad descriptor anywhere in the merged tail forces the reduce to
fail. -/
theorem foldlM_mergeStep_err_of_bad (l : List TypeDesc) (acc : TypeDesc)
    (hbad : ∃ cur ∈ l, getZodTypeName (some cur) ≠ some "ZodObject" ∧
        getZodTypeName (some cur) ≠ some "ZodVoid" ∧
        getZodTypeName (some cur) ≠ some "ZodOptional") :
    ∃ e, l.foldlM mergeStep acc = .error e := by
  induction l generalizing acc with
  | nil =>
    obtain ⟨c, hc, _⟩ := hbad
    cases hc
  | cons h0 t ih =>
    rw [List.foldlM_cons]
    cases hm : mergeStep acc h0 with
    | error e => exact ⟨e, rfl⟩
    | ok acc' =>
      obtain ⟨c, hc, hbad3⟩ := hbad
      rcases List.mem_cons.mp hc with rfl | hct
      · obtain ⟨_, hco, _⟩ := mergeStep_ok_inv acc c acc' hm
        rw [asZodObject, if_pos hbad3] at hco
        cases hco
      · obtain ⟨e, he⟩ := ih acc' ⟨c, hct, hbad3⟩
        exact ⟨e, he⟩

/-- Every failure of the merge reduce carries the payload of the seed or
of one of the merged descriptors. -/
theorem foldlM_mergeStep_err_payload (l : List TypeDesc) (acc : TypeDesc)
    (e : GenError) (h : l.foldlM mergeStep acc = .error e) :
    asZodObject acc = .error e ∨
      ∃ d ∈ l,
        e = .invalidInputShape (getZodTypeName (some d)) (shapeFlags d) := by
  induction l generalizing acc with
  | nil =>
    rw [List.foldlM_nil] at h
    simp [pure, Except.pure] at h
  | cons h0 t ih =>
    rw [List.foldlM_cons] at h
    cases hm : mergeStep acc h0 with
    | error e' =>
      rw [hm] at h
      have he : e' = e := Except.error.inj h
      subst he
      rcases mergeStep_error_inv acc h0 e' hm with ha | ⟨_, hc⟩
      · exact .inl ha
      · exact .inr ⟨h0, List.mem_cons_self _ _, asZodObject_error_eq h0 e' hc⟩
    | ok acc' =>
      rw [hm] at h
      have h2 : t.foldlM mergeStep acc' = .error e := by
        simpa [bind, Except.bind] using h
      rcases ih acc' h2 with ha | ⟨d, hd, hpay⟩
      · obtain ⟨_, _, rfl⟩ := mergeStep_ok_inv acc h0 acc' hm
        rw [asZodObject_zodMerge] at ha
        cases ha
      · exact .inr ⟨d, List.mem_cons_of_mem _ hd, hpay⟩

/-- A procedure whose input reconciliation throws aborts its path item. -/
theorem buildProcItem_error_of_reconcile (env : ConvEnv) (opts : GenOptions)
    (name : String) (pd : ProcDef) (e : GenError)
    (h : reconcileInputs pd.inputs = .error e) :
    buildProcItem env opts name pd = .error e := by
  rw [buildProcItem, buildBaseOperation, h]
  rfl

/-- A procedure whose input reconciliation throws aborts the whole paths
fold of the generator. -/
theorem fold_paths_error (env : ConvEnv) (opts : GenOptions) (name : String)
    (pd : ProcDef) (e : GenError)
    (hre : reconcileInputs pd.inputs = .error e) :
    ∀ (procs : List (String × ProcDef)) (acc : List (String × PathItem)),
      (name, pd) ∈ procs →
      ∀ res, procs.foldlM (fun acc p => do
          let item ← buildProcItem env opts p.1 p.2
          pure (setKey acc (pathKey opts.pathPrefix p.1) item)) acc ≠
        .ok res := by
  intro procs
  induction procs with
  | nil =>
    intro acc hmem
    cases hmem
  | cons hd tl ih =>
    obtain ⟨n0, p0⟩ := hd
    intro acc hmem res hres
    rw [List.foldlM_cons] at hres
    cases hbi : buildProcItem env opts n0 p0 with
    | error e2 =>
      simp [hbi, bind, Except.bind] at hres
    | ok item =>
      simp only [hbi, bind, Except.bind, pure, Except.pure] at hres
      rcases List.mem_cons.mp hmem with heq | hmem'
      · obtain ⟨h1, h2⟩ := Prod.mk.inj heq
        subst h1
        subst h2
        rw [buildProcItem_error_of_reconcile env opts name pd e hre] at hbi
        cases hbi
      · exact ih _ hmem' res hres

end FoldLemmas

/-- C4: a non-array-first procedure with any later input descriptor of a
kind outside object/void/optional fails: the object check throws the
invalid-input-shape error carrying the offender's resolved kind and both
dialects' raw shape flags, the reconciler surfaces the payload of an
actual offending descriptor, and the error aborts the whole document
build — no partial document is returned. -/
theorem invalid_input_shape_propagation :
    (∀ d : TypeDesc,
        getZodTypeName (some d) ≠ some "ZodObject" →
        getZodTypeName (some d) ≠ some "ZodVoid" →
        getZodTypeName (some d) ≠ some "ZodOptional" →
        asZodObject d =
          .error (.invalidInputShape (getZodTypeName (some d))
            (shapeFlags d))) ∧
    (∀ inputs : List TypeDesc,
        getZodTypeName inputs.head? ≠ some "ZodArray" →
        (∃ cur ∈ inputs.drop 1,
            getZodTypeName (some cur) ≠ some "ZodObject" ∧
            getZodTypeName (some cur) ≠ some "ZodVoid" ∧
            getZodTypeName (some cur) ≠ some "ZodOptional") →
        ∃ d ∈ inputs,
          reconcileInputs inputs =
            .error (.invalidInputShape (getZodTypeName (some d))
              (shapeFlags d))) ∧
    (∀ (env : ConvEnv) (opts : GenOptions)
        (router : List (String × ProcDef)) (name : String) (pd : ProcDef),
        (name, pd) ∈ router →
        isInvalidInputErr (reconcileInputs pd.inputs) = true →
        ∀ doc,
          generateOpenAPIDocumentFromTRPCRouter env router opts ≠ .ok doc) := by
  refine ⟨?_, ?_, ?_⟩
  · intro d h1 h2 h3
    rw [asZodObject, if_pos ⟨h1, h2, h3⟩]
  · intro inputs hna hbad
    cases inputs with
    | nil =>
      obtain ⟨c, hc, _⟩ := hbad
      cases hc
    | cons d0 rest =>
      rw [reconcileInputs, if_neg hna]
      cases hin : asZodObject ((d0 :: rest).headD zEmptyObject) with
      | error e =>
        refine ⟨d0, List.mem_cons_self _ _, ?_⟩
        have hpay : e = .invalidInputShape (getZodTypeName (some d0))
            (shapeFlags d0) := asZodObject_error_eq d0 e hin
        rw [hpay]
        rfl
      | ok init =>
        obtain rfl : init = d0 := asZodObject_ok_eq d0 init hin
        obtain ⟨e, he⟩ := foldlM_mergeStep_err_of_bad rest init hbad
        rcases foldlM_mergeStep_err_payload rest init e he with ha | ⟨d, hd, hpay⟩
        · have hok : asZodObject init = Except.ok init := hin
          cases hok.symm.trans ha
        · refine ⟨d, List.mem_cons_of_mem _ hd, ?_⟩
          exact hpay ▸ he
  · intro env opts router name pd hmem hinv doc hdoc
    cases hre : reconcileInputs pd.inputs with
    | ok v =>
      rw [hre] at hinv
      simp [isInvalidInputErr] at hinv
    | error e =>
      rw [generateOpenAPIDocumentFromTRPCRouter] at hdoc
      cases hf : router.foldlM (fun acc p => do
          let item ← buildProcItem env opts p.1 p.2
          pure (setKey acc (pathKey opts.pathPrefix p.1) item)) [] with
      | error e2 =>
        rw [hf] at hdoc
        simp [bind, Except.bind] at hdoc
      | ok paths =>
        exact fold_paths_error env opts name pd e hre router [] hmem paths hf

/-- Witness for C4: a number-kind second input fails the object check
with its kind and flags, the reconciler surfaces it, and a router holding
such a procedure never yields a document. -/
theorem invalid_input_shape_propagation_witness :
    asZodObject sampleNumberDesc =
      .error (.invalidInputShape (some "ZodNumber")
        ⟨false, true, none, some "number", none⟩) ∧
    (∃ d ∈ [sampleObjectDesc, sampleNumberDesc],
        reconcileInputs [sampleObjectDesc, sampleNumberDesc] =
          .error (.invalidInputShape (getZodTypeName (some d))
            (shapeFlags d))) ∧
    ∀ doc,
      generateOpenAPIDocumentFromTRPCRouter sampleEnv
        [("bad", badSecondInputProc)] defaultOpts ≠ .ok doc := by
  refine ⟨?_, ?_, ?_⟩
  · exact (invalid_input_shape_propagation.1 sampleNumberDesc (by decide)
      (by decide) (by decide)).trans rfl
  · exact invalid_input_shape_propagation.2.1
      [sampleObjectDesc, sampleNumberDesc] (by decide)
      ⟨sampleNumberDesc, List.mem_cons_self _ _,
        by decide, by decide, by decide⟩
  · exact invalid_input_shape_propagation.2.2 sampleEnv defaultOpts
      [("bad", badSecondInputProc)] "bad" badSecondInputProc
      (List.mem_cons_self _ _) rfl

end OpenapiTrpc
